import Mathlib

/-!
Verification of the join engine of the bigquery-etl-dataflow-sample pipeline
(`pipeline.py`): the broadcast reference resolver (`process_artists`) and the
grouped cartesian merge (`UnSetCoGroup.process`), together with the record
projections and the two-stage pipeline composition that uses them.

Records are modelled as association lists from field names to JSON scalar
values (Python dicts with insertion order); dict assignment replaces the
first occurrence of a key or appends.  The merge's in-place mutation of the
left record is modelled by threading the record state through the join loop
and snapshotting it at each `yield`.  Fallible dict indexing (Python
`KeyError`) is modelled with `Except`.
-/

/-- A JSON scalar value as it appears in the pipeline's records. -/
inductive Value where
  | null : Value
  | int (n : Int) : Value
  | str (s : String) : Value
  | bool (b : Bool) : Value
deriving DecidableEq, Repr

/-- Python truthiness of a scalar value (`if reduced_row['gender']:`). -/
def Value.truthy : Value → Bool
  | .null => false
  | .int n => n != 0
  | .str s => s != ""
  | .bool b => b

/-- Errors surfaced by record processing: Python `KeyError` on a missing
dict field, the spec's MissingField kind. -/
inductive Err where
  | missingField (f : String) : Err
deriving DecidableEq, Repr

/-- A record: a Python dict from field name to scalar, as an association
list in insertion order. -/
abbrev RecordT := List (String × Value)

/-- Dict read: value at the first occurrence of the key, if any. -/
def getField : RecordT → String → Option Value
  | [], _ => none
  | (k', v) :: rest, k => if k' = k then some v else getField rest k

/-- Dict read with a default. -/
def getFieldD (r : RecordT) (k : String) (d : Value) : Value :=
  (getField r k).getD d

/-- Dict assignment `r[k] = v`: replace the first occurrence of `k`, or
append when absent. -/
def setField : RecordT → String → Value → RecordT
  | [], k, v => [(k, v)]
  | (k', v') :: rest, k, v =>
      if k' = k then (k', v) :: rest else (k', v') :: setField rest k v

/-- Fallible dict read `r[k]`: `KeyError` when the field is absent. -/
def req (r : RecordT) (k : String) : Except Err Value :=
  match getField r k with
  | some v => .ok v
  | none => .error (.missingField k)

/-- A record is well formed when its keys are distinct, as Python dict
keys always are. -/
def wfRecord (r : RecordT) : Prop := (r.map Prod.fst).Nodup

instance (r : RecordT) : Decidable (wfRecord r) := by
  unfold wfRecord; infer_instance

/-- A reference lookup table: the `(id, name)` pairs produced by
`process_gender_or_area` from gender.json / area.json. -/
abbrev Table := List (Value × Value)

/-- Whether a value is an integer scalar. -/
def isIntV : Value → Bool
  | .int _ => true
  | _ => false

/-- Whether a value is a string scalar. -/
def isStrV : Value → Bool
  | .str _ => true
  | _ => false

/-- A lookup table is well typed when every id is an integer, every name a
string, and ids are unique within the table (spec 3, ReferenceEntry). -/
def wfTable (t : Table) : Prop :=
  (∀ p ∈ t, isIntV p.1 = true ∧ isStrV p.2 = true) ∧
    (t.map Prod.fst).Nodup

instance (t : Table) : Decidable (wfTable t) := by
  unfold wfTable; infer_instance

/-- The resolution loop of `process_artists` (lines 31-33 and 34-36): scan
the table in order and, whenever an entry's id equals the field's current
value, overwrite the current value with that entry's name.  The comparison
at each step reads the value as already mutated by earlier iterations. -/
def lookupLoop (t : Table) (v : Value) : Value :=
  t.foldl (fun cur e => if e.1 = cur then e.2 else cur) v

/-- Gender resolution (lines 30-33): the loop runs only when the current
value is truthy. -/
def resolveGender (t : Table) (v : Value) : Value :=
  if v.truthy then lookupLoop t v else v

/-- Area resolution (lines 34-36): the loop runs unconditionally. -/
def resolveArea (t : Table) (v : Value) : Value :=
  lookupLoop t v

/-- Lines 30-36 of `process_artists`: rewrite the `gender` field (guarded
by truthiness) and then the `area` field of the reduced row in place. -/
def resolveRecordFields (gender area : Table) (r : RecordT) : RecordT :=
  let r1 := setField r "gender" (resolveGender gender (getFieldD r "gender" .null))
  setField r1 "area" (resolveArea area (getFieldD r1 "area" .null))

/-- `process_artists(row, gender, area)`: project the five artist fields
(`KeyError` when one is absent), resolve gender and area against the
broadcast tables, and key the reduced row by its id. -/
def process_artists (row : RecordT) (gender area : Table) :
    Except Err (Value × RecordT) := do
  let idv ← req row "id"
  let gidv ← req row "gid"
  let namev ← req row "name"
  let areav ← req row "area"
  let genderv ← req row "gender"
  let reduced : RecordT :=
    [("id", idv), ("artist_gid", gidv), ("artist_name", namev),
     ("area", areav), ("gender", genderv)]
  let reduced := resolveRecordFields gender area reduced
  .ok (getFieldD reduced "id" .null, reduced)

/-- `process_artist_credit(element)` after JSON decoding: project
`artist_credit` and `artist` and key by `artist`. -/
def process_artist_credit (row : RecordT) : Except Err (Value × RecordT) := do
  let ac ← req row "artist_credit"
  let ar ← req row "artist"
  .ok (ar, [("artist_credit", ac), ("artist", ar)])

/-- `process_recording(element)` after JSON decoding: project the five
recording fields and key by `artist_credit`. -/
def process_recording (row : RecordT) : Except Err (Value × RecordT) := do
  let n ← req row "name"
  let len ← req row "length"
  let g ← req row "gid"
  let vid ← req row "video"
  let ac ← req row "artist_credit"
  .ok (ac, [("recording_name", n), ("length", len), ("recording_gid", g),
            ("video", vid), ("artist_credit", ac)])

/-- The inner loop of `UnSetCoGroup.process` (lines 103-105): copy every
field of `join` except `exclude_join_field` onto `src` in place, in the
iteration order of `join`. -/
def applyJoin (src join : RecordT) (exclude : String) : RecordT :=
  join.foldl (fun acc kv => if kv.1 ≠ exclude then setField acc kv.1 kv.2 else acc) src

/-- Cumulative application of a list of joins to one src: the state of the
mutated `src` object after that whole list. -/
def applyJoins (src : RecordT) (js : List RecordT) (e : String) : RecordT :=
  js.foldl (fun s j => applyJoin s j e) src

/-- The middle loop of `UnSetCoGroup.process` for one `src` (lines
102-106): apply each `join` in turn to the same mutated `src` object and
yield a snapshot of it after each application. -/
def mergeOne (src : RecordT) (joins : List RecordT) (exclude : String) :
    List RecordT :=
  match joins with
  | [] => []
  | j :: rest =>
      let src' := applyJoin src j exclude
      src' :: mergeOne src' rest exclude

/-- Lines 101-106 of `UnSetCoGroup.process`: the cartesian merge of a
grouped key's `sources` and `joins` lists. -/
def mergeGroup (sources joins : List RecordT) (exclude : String) :
    List RecordT :=
  sources.flatMap (fun src => mergeOne src joins exclude)

/-- Association-list read for the grouped dictionary handed to
`UnSetCoGroup.process`. -/
def lookupGroup : List (String × List RecordT) → String → Option (List RecordT)
  | [], _ => none
  | (k', v) :: rest, k => if k' = k then some v else lookupGroup rest k

/-- `UnSetCoGroup.process(element, source, joined, exclude_join_field)`:
read the two grouped lists out of the element (`KeyError` when a name is
absent) and emit the cartesian merge. -/
def unSetCoGroupProcess (element : Value × List (String × List RecordT))
    (source joined exclude : String) : Except Err (List RecordT) := do
  let sources ←
    match lookupGroup element.2 source with
    | some l => .ok l
    | none => .error (.missingField source)
  let joins ←
    match lookupGroup element.2 joined with
    | some l => .ok l
    | none => .error (.missingField joined)
  .ok (mergeGroup sources joins exclude)

/-- Modelled from the spec (4.2, one bullet), as a contrast definition for
refinement: "For each `src` in `sources`, for each `join` in `joins`:
produce one output record equal to a shallow copy of `src` with every
field of `join` except `exclude_field` copied over".  Each pair is merged
against a fresh copy of `src`. -/
def cartesianSpecMerge (sources joins : List RecordT) (exclude : String) :
    List RecordT :=
  sources.flatMap (fun src => joins.map (fun j => applyJoin src j exclude))

/-- `beam.Map` over a collection of records where the mapped function may
raise: the first error propagates and aborts. -/
def exMapM (f : α → Except Err β) : List α → Except Err (List β)
  | [] => .ok []
  | x :: xs => do
      let y ← f x
      let ys ← exMapM f xs
      .ok (y :: ys)

/-- The group of records sharing key `k` in a keyed collection, in order:
what `CoGroupByKey` hands to `UnSetCoGroup.process` for each side. -/
def groupFor (k : Value) (ps : List (Value × RecordT)) : List RecordT :=
  ps.filterMap (fun p => if p.1 = k then some p.2 else none)

/-- `CoGroupByKey` of two keyed collections followed by `UnSetCoGroup`:
for every key present on either side, merge that key's two groups. -/
def coGroupMerge (lefts rights : List (Value × RecordT)) (exclude : String) :
    List RecordT :=
  ((lefts.map Prod.fst ++ rights.map Prod.fst).dedup).flatMap
    (fun k => mergeGroup (groupFor k lefts) (groupFor k rights) exclude)

/-- The re-keying map between the two merges
(`lambda e: (e['artist_credit'], e)`). -/
def rekey (rs : List RecordT) : Except Err (List (Value × RecordT)) :=
  exMapM (fun r =>
    match getField r "artist_credit" with
    | some v => .ok (v, r)
    | none => .error (.missingField "artist_credit")) rs

/-- The whole pipeline on decoded JSON rows: project and resolve artists,
project credits and recordings, first merge (on artist id, excluding
`artist`), re-key by `artist_credit`, second merge (excluding
`artist_credit`). -/
def runPipeline (artistRows creditRows recordingRows : List RecordT)
    (gender area : Table) : Except Err (List RecordT) := do
  let artists ← exMapM (fun r => process_artists r gender area) artistRows
  let credits ← exMapM process_artist_credit creditRows
  let recs ← exMapM process_recording recordingRows
  let stage1 := coGroupMerge artists credits "artist"
  let stage1k ← rekey stage1
  .ok (coGroupMerge stage1k recs "artist_credit")

section Scratch

/- Sanity checks of the embedding on concrete inputs (kept as anonymous
examples; they are part of the development's validation). -/

example :
    mergeGroup [[]] [[("a", Value.int 1)], [("b", Value.int 2)]] "x" =
      [[("a", Value.int 1)], [("a", Value.int 1), ("b", Value.int 2)]] := by
  decide

example :
    cartesianSpecMerge [[]] [[("a", Value.int 1)], [("b", Value.int 2)]] "x" =
      [[("a", Value.int 1)], [("b", Value.int 2)]] := by
  decide

example :
    process_artists
      [("id", Value.int 5), ("gid", Value.str "g1"), ("name", Value.str "Bob"),
       ("area", Value.null), ("gender", Value.int 1)]
      [(Value.int 1, Value.str "Male")] [] =
      .ok (Value.int 5,
        [("id", Value.int 5), ("artist_gid", Value.str "g1"),
         ("artist_name", Value.str "Bob"), ("area", Value.null),
         ("gender", Value.str "Male")]) := by
  rfl

end Scratch

/-! ### Dictionary lemmas -/

@[simp]
theorem getField_setField_same (r : RecordT) (k : String) (v : Value) :
    getField (setField r k v) k = some v := by
  induction r with
  | nil => simp [setField, getField]
  | cons p rest ih =>
      by_cases h : p.1 = k <;> simp [setField, getField, h, ih]

theorem getField_setField_ne (r : RecordT) {k' k : String} (h : k' ≠ k)
    (v : Value) : getField (setField r k' v) k = getField r k := by
  induction r with
  | nil => simp [setField, getField, h]
  | cons p rest ih =>
      by_cases h1 : p.1 = k' <;> simp [setField, getField, h1, h, ih]

theorem setField_getField_self {r : RecordT} {k : String} {v : Value}
    (h : getField r k = some v) : setField r k v = r := by
  induction r with
  | nil => simp [getField] at h
  | cons p rest ih =>
      obtain ⟨pk, pv⟩ := p
      by_cases h1 : pk = k
      · simp [getField, h1] at h
        simp [setField, h1, h]
      · simp [getField, h1] at h
        simp [setField, h1, ih h]

theorem keys_setField_of_mem {r : RecordT} {k : String}
    (h : k ∈ r.map Prod.fst) (v : Value) :
    (setField r k v).map Prod.fst = r.map Prod.fst := by
  induction r with
  | nil => simp at h
  | cons p rest ih =>
      by_cases h1 : p.1 = k
      · simp [setField, h1]
      · have hk : k ∈ rest.map Prod.fst := by
          simp only [List.map_cons, List.mem_cons] at h
          rcases h with h2 | h2
          · exact absurd h2.symm h1
          · exact h2
        simp [setField, h1, ih hk]

/-! ### applyJoin lemmas -/

theorem applyJoin_nil (src : RecordT) (e : String) :
    applyJoin src [] e = src := rfl

theorem applyJoin_cons (src : RecordT) (k : String) (v : Value)
    (rest : List (String × Value)) (e : String) :
    applyJoin src ((k, v) :: rest) e =
      applyJoin (if k ≠ e then setField src k v else src) rest e := rfl

theorem getField_applyJoin_exclude (j : RecordT) (e : String) :
    ∀ src : RecordT, getField (applyJoin src j e) e = getField src e := by
  induction j with
  | nil => intro src; rfl
  | cons p rest ih =>
      intro src
      rw [applyJoin_cons]
      by_cases h : p.1 = e
      · simp [h, ih]
      · simp [h, ih, getField_setField_ne (r := src) h p.2]

theorem getField_applyJoin_not_mem {j : RecordT} {k : String}
    (hk : k ∉ j.map Prod.fst) (e : String) :
    ∀ src : RecordT, getField (applyJoin src j e) k = getField src k := by
  induction j with
  | nil => intro src; rfl
  | cons p rest ih =>
      intro src
      simp only [List.map_cons, List.mem_cons] at hk
      push_neg at hk
      rw [applyJoin_cons]
      by_cases h : p.1 = e
      · simp [h, ih hk.2]
      · simp [h, ih hk.2, getField_setField_ne (r := src) (fun hh => hk.1 hh.symm) p.2]

theorem getField_applyJoin_of_mem {j : RecordT} (hwf : wfRecord j)
    {k : String} {v : Value} (hget : getField j k = some v) {e : String}
    (hne : k ≠ e) :
    ∀ src : RecordT, getField (applyJoin src j e) k = some v := by
  induction j with
  | nil => simp [getField] at hget
  | cons p rest ih =>
      intro src
      have hwf' : wfRecord rest := (List.nodup_cons.mp hwf).2
      rw [applyJoin_cons]
      by_cases h1 : p.1 = k
      · simp [getField, h1] at hget
        have hnotin : k ∉ rest.map Prod.fst := by
          have := (List.nodup_cons.mp hwf).1
          simpa [h1] using this
        rw [getField_applyJoin_not_mem hnotin]
        simp [h1, hne, hget]
      · simp [getField, h1] at hget
        by_cases h2 : p.1 = e <;> simp [h2, ih hwf' hget]

/-! ### mergeOne / mergeGroup lemmas -/

theorem applyJoins_nil (src : RecordT) (e : String) :
    applyJoins src [] e = src := rfl

theorem applyJoins_cons (src : RecordT) (j : RecordT) (rest : List RecordT)
    (e : String) :
    applyJoins src (j :: rest) e = applyJoins (applyJoin src j e) rest e := rfl

theorem applyJoins_append (src : RecordT) (a b : List RecordT) (e : String) :
    applyJoins src (a ++ b) e = applyJoins (applyJoins src a e) b e :=
  List.foldl_append _ _ _ _

theorem getField_applyJoins_exclude (js : List RecordT) (e : String) :
    ∀ src : RecordT, getField (applyJoins src js e) e = getField src e := by
  induction js with
  | nil => intro src; rfl
  | cons j rest ih =>
      intro src
      rw [applyJoins_cons, ih, getField_applyJoin_exclude]

theorem getField_applyJoins_not_mem {js : List RecordT} {k : String}
    (hk : ∀ j ∈ js, k ∉ j.map Prod.fst) (e : String) :
    ∀ src : RecordT, getField (applyJoins src js e) k = getField src k := by
  induction js with
  | nil => intro src; rfl
  | cons j rest ih =>
      intro src
      rw [applyJoins_cons,
        ih (fun j' hj' => hk j' (List.mem_cons_of_mem _ hj')),
        getField_applyJoin_not_mem (hk j (List.mem_cons_self _ _))]

theorem mergeOne_nil (src : RecordT) (e : String) : mergeOne src [] e = [] := rfl

theorem mergeOne_cons (src j : RecordT) (rest : List RecordT) (e : String) :
    mergeOne src (j :: rest) e =
      applyJoin src j e :: mergeOne (applyJoin src j e) rest e := rfl

theorem mergeOne_length (joins : List RecordT) (e : String) :
    ∀ src : RecordT, (mergeOne src joins e).length = joins.length := by
  induction joins with
  | nil => intro src; rfl
  | cons j rest ih => intro src; simp [mergeOne, ih]

/-- The i-th snapshot yielded for one `src` is `src` after the in-place
application of the first `i + 1` joins in order. -/
theorem mergeOne_getElem? (joins : List RecordT) (e : String) :
    ∀ (src : RecordT) (i : Nat), i < joins.length →
      (mergeOne src joins e)[i]? = some (applyJoins src (joins.take (i + 1)) e) := by
  induction joins with
  | nil => intro src i hi; simp at hi
  | cons j rest ih =>
      intro src i hi
      match i with
      | 0 => simp [mergeOne, applyJoins_cons, applyJoins_nil]
      | i + 1 =>
          have hi' : i < rest.length := by simpa using hi
          simp only [mergeOne, List.getElem?_cons_succ, List.take_succ_cons,
            applyJoins_cons]
          exact ih (applyJoin src j e) i hi'

theorem mem_mergeOne {joins : List RecordT} {e : String} {src o : RecordT}
    (h : o ∈ mergeOne src joins e) :
    ∃ i : Nat, i < joins.length ∧ o = applyJoins src (joins.take (i + 1)) e := by
  obtain ⟨i, hi, hget⟩ := List.getElem_of_mem h
  refine ⟨i, by simpa [mergeOne_length] using hi, ?_⟩
  have := mergeOne_getElem? joins e src i (by simpa [mergeOne_length] using hi)
  rw [List.getElem?_eq_getElem hi, hget] at this
  exact Option.some_injective _ this

theorem mergeGroup_length (sources joins : List RecordT) (e : String) :
    (mergeGroup sources joins e).length = sources.length * joins.length := by
  induction sources with
  | nil => simp [mergeGroup]
  | cons s rest ih =>
      simp only [mergeGroup, List.flatMap_cons, List.length_append,
        List.length_cons] at *
      rw [mergeOne_length, ih]
      ring

theorem mem_mergeGroup {sources joins : List RecordT} {e : String}
    {o : RecordT} (h : o ∈ mergeGroup sources joins e) :
    ∃ src ∈ sources, o ∈ mergeOne src joins e := by
  simpa [mergeGroup, List.mem_flatMap] using h

/-! ### lookupLoop lemmas -/

theorem isIntV_iff {v : Value} : isIntV v = true ↔ ∃ n, v = Value.int n := by
  cases v <;> simp [isIntV]

theorem isStrV_iff {v : Value} : isStrV v = true ↔ ∃ s, v = Value.str s := by
  cases v <;> simp [isStrV]

theorem lookupLoop_nil (v : Value) : lookupLoop [] v = v := rfl

theorem lookupLoop_cons (p : Value × Value) (rest : Table) (v : Value) :
    lookupLoop (p :: rest) v = lookupLoop rest (if p.1 = v then p.2 else v) := rfl

/-- An unmatched value is left unchanged by the lookup scan. -/
theorem lookupLoop_no_match {t : Table} {v : Value}
    (h : ∀ p ∈ t, p.1 ≠ v) : lookupLoop t v = v := by
  induction t with
  | nil => rfl
  | cons p rest ih =>
      rw [lookupLoop_cons]
      rw [if_neg (h p (List.mem_cons_self _ _))]
      exact ih (fun q hq => h q (List.mem_cons_of_mem _ hq))

/-- In a table whose ids are all integers, a string value matches no id
and is left unchanged. -/
theorem lookupLoop_str {t : Table}
    (h : ∀ p ∈ t, ∃ n, p.1 = Value.int n) (s : String) :
    lookupLoop t (Value.str s) = Value.str s := by
  refine lookupLoop_no_match (fun p hp => ?_)
  obtain ⟨n, hn⟩ := (h p hp)
  simp [hn]

/-- In a well-typed table, scanning with a matching id yields that entry's
name: the scan reaches the entry unchanged (ids before it differ), rewrites
the value to the name string, and no later integer id can match a string. -/
theorem lookupLoop_match {t : Table} (hwf : wfTable t) {i nm : Value}
    (hmem : (i, nm) ∈ t) : lookupLoop t i = nm := by
  induction t with
  | nil => simp at hmem
  | cons p rest ih =>
      obtain ⟨hty, hnd⟩ := hwf
      rcases List.mem_cons.mp hmem with h1 | h1
      · obtain ⟨s, hs⟩ := isStrV_iff.mp (hty p (List.mem_cons_self _ _)).2
        rw [lookupLoop_cons, if_pos (by rw [← h1])]
        rw [hs]
        refine lookupLoop_str
          (fun q hq => isIntV_iff.mp (hty q (List.mem_cons_of_mem _ hq)).1) s |>.trans ?_
        rw [← hs, ← h1]
      · have hne : p.1 ≠ i := by
          intro hq
          have : p.1 ∈ rest.map Prod.fst := by
            rw [hq]
            exact List.mem_map_of_mem Prod.fst h1
          exact (List.nodup_cons.mp hnd).1 this
        rw [lookupLoop_cons, if_neg hne]
        exact ih ⟨fun q hq => hty q (List.mem_cons_of_mem _ hq),
          (List.nodup_cons.mp hnd).2⟩ h1

/-! ### exMapM and projection lemmas -/

theorem exMapM_ok_mem {f : α → Except Err β} :
    ∀ {l : List α} {l' : List β}, exMapM f l = .ok l' →
      ∀ y ∈ l', ∃ x ∈ l, f x = .ok y := by
  intro l
  induction l with
  | nil =>
      intro l' h y hy
      simp only [exMapM] at h
      cases h
      simp at hy
  | cons x xs ih =>
      intro l' h y hy
      simp only [exMapM, bind, Except.bind] at h
      cases hfx : f x with
      | error e => rw [hfx] at h; simp at h
      | ok z =>
          rw [hfx] at h
          cases hxs : exMapM f xs with
          | error e => rw [hxs] at h; simp at h
          | ok zs =>
              rw [hxs] at h
              simp only [Except.ok.injEq] at h
              subst h
              rcases List.mem_cons.mp hy with h1 | h1
              · exact ⟨x, List.mem_cons_self _ _, by rw [hfx, h1]⟩
              · obtain ⟨x', hx', hfx'⟩ := ih hxs y h1
                exact ⟨x', List.mem_cons_of_mem _ hx', hfx'⟩

/-- Resolution rewrites exactly the `area` and `gender` fields of the
reduced artist row, leaving the other three fields and the key order
intact. -/
theorem resolveRecordFields_artist (g a : Table)
    (idv gidv namev areav genderv : Value) :
    resolveRecordFields g a
      [("id", idv), ("artist_gid", gidv), ("artist_name", namev),
       ("area", areav), ("gender", genderv)] =
      [("id", idv), ("artist_gid", gidv), ("artist_name", namev),
       ("area", resolveArea a areav), ("gender", resolveGender g genderv)] := by
  rfl

/-- Shape of a successful `process_artists`: the five source fields were
present, the result is the resolved reduced row, and the key is its id. -/
theorem process_artists_ok_shape {row : RecordT} {g a : Table} {k : Value}
    {r : RecordT} (h : process_artists row g a = .ok (k, r)) :
    ∃ idv gidv namev areav genderv,
      getField row "id" = some idv ∧ getField row "gid" = some gidv ∧
      getField row "name" = some namev ∧ getField row "area" = some areav ∧
      getField row "gender" = some genderv ∧ k = idv ∧
      r = [("id", idv), ("artist_gid", gidv), ("artist_name", namev),
           ("area", resolveArea a areav), ("gender", resolveGender g genderv)] := by
  simp only [process_artists, req, bind, Except.bind] at h
  cases h1 : getField row "id" with
  | none => rw [h1] at h; simp at h
  | some idv =>
  rw [h1] at h
  cases h2 : getField row "gid" with
  | none => rw [h2] at h; simp at h
  | some gidv =>
  rw [h2] at h
  cases h3 : getField row "name" with
  | none => rw [h3] at h; simp at h
  | some namev =>
  rw [h3] at h
  cases h4 : getField row "area" with
  | none => rw [h4] at h; simp at h
  | some areav =>
  rw [h4] at h
  cases h5 : getField row "gender" with
  | none => rw [h5] at h; simp at h
  | some genderv =>
  rw [h5] at h
  refine ⟨idv, gidv, namev, areav, genderv, rfl, rfl, rfl, rfl, rfl, ?_, ?_⟩
  · simp only [resolveRecordFields_artist, Except.ok.injEq, Prod.mk.injEq] at h
    exact h.1.symm.trans rfl
  · simp only [resolveRecordFields_artist, Except.ok.injEq, Prod.mk.injEq] at h
    exact h.2.symm

/-- Shape of a successful `process_artist_credit`. -/
theorem process_artist_credit_ok_shape {row : RecordT} {k : Value}
    {r : RecordT} (h : process_artist_credit row = .ok (k, r)) :
    ∃ ac ar, getField row "artist_credit" = some ac ∧
      getField row "artist" = some ar ∧ k = ar ∧
      r = [("artist_credit", ac), ("artist", ar)] := by
  simp only [process_artist_credit, req, bind, Except.bind] at h
  cases h1 : getField row "artist_credit" with
  | none => rw [h1] at h; simp at h
  | some ac =>
  rw [h1] at h
  cases h2 : getField row "artist" with
  | none => rw [h2] at h; simp at h
  | some ar =>
  rw [h2] at h
  simp only [Except.ok.injEq, Prod.mk.injEq] at h
  exact ⟨ac, ar, rfl, rfl, h.1.symm, h.2.symm⟩

/-- Shape of a successful `process_recording`. -/
theorem process_recording_ok_shape {row : RecordT} {k : Value} {r : RecordT}
    (h : process_recording row = .ok (k, r)) :
    ∃ n len g vid ac, getField row "name" = some n ∧
      getField row "length" = some len ∧ getField row "gid" = some g ∧
      getField row "video" = some vid ∧
      getField row "artist_credit" = some ac ∧ k = ac ∧
      r = [("recording_name", n), ("length", len), ("recording_gid", g),
           ("video", vid), ("artist_credit", ac)] := by
  simp only [process_recording, req, bind, Except.bind] at h
  cases h1 : getField row "name" with
  | none => rw [h1] at h; simp at h
  | some n =>
  rw [h1] at h
  cases h2 : getField row "length" with
  | none => rw [h2] at h; simp at h
  | some len =>
  rw [h2] at h
  cases h3 : getField row "gid" with
  | none => rw [h3] at h; simp at h
  | some g =>
  rw [h3] at h
  cases h4 : getField row "video" with
  | none => rw [h4] at h; simp at h
  | some vid =>
  rw [h4] at h
  cases h5 : getField row "artist_credit" with
  | none => rw [h5] at h; simp at h
  | some ac =>
  rw [h5] at h
  simp only [Except.ok.injEq, Prod.mk.injEq] at h
  exact ⟨n, len, g, vid, ac, rfl, rfl, rfl, rfl, rfl, h.1.symm, h.2.symm⟩

/-! ### Pipeline composition lemmas -/

theorem mem_groupFor {k : Value} {ps : List (Value × RecordT)} {x : RecordT}
    (h : x ∈ groupFor k ps) : x ∈ ps.map Prod.snd := by
  simp only [groupFor, List.mem_filterMap] at h
  obtain ⟨p, hp, hx⟩ := h
  by_cases h1 : p.1 = k
  · rw [if_pos h1] at hx
    cases hx
    exact List.mem_map_of_mem Prod.snd hp
  · simp [h1] at hx

/-- Every record produced by a co-group merge comes from some left-side
record with some sublist of right-side records applied to it. -/
theorem mem_coGroupMerge {lefts rights : List (Value × RecordT)} {e : String}
    {o : RecordT} (h : o ∈ coGroupMerge lefts rights e) :
    ∃ src ∈ lefts.map Prod.snd, ∃ js : List RecordT,
      (∀ j ∈ js, j ∈ rights.map Prod.snd) ∧ o ∈ mergeOne src js e := by
  simp only [coGroupMerge, List.mem_flatMap] at h
  obtain ⟨k, _, hmerge⟩ := h
  obtain ⟨src, hsrc, ho⟩ := mem_mergeGroup hmerge
  exact ⟨src, mem_groupFor hsrc, groupFor k rights,
    fun j hj => mem_groupFor hj, ho⟩

/-- Fields that no applied join mentions pass through a merge unchanged. -/
theorem getField_mem_mergeOne_not_mem {src o : RecordT} {joins : List RecordT}
    {e : String} (h : o ∈ mergeOne src joins e) {k : String}
    (hk : ∀ j ∈ joins, k ∉ j.map Prod.fst) :
    getField o k = getField src k := by
  obtain ⟨i, _, rfl⟩ := mem_mergeOne h
  exact getField_applyJoins_not_mem
    (fun j hj => hk j (List.take_subset _ _ hj)) e src

theorem rekey_ok_mem {rs : List RecordT} {l' : List (Value × RecordT)}
    (h : rekey rs = .ok l') : ∀ p ∈ l', p.2 ∈ rs := by
  intro p hp
  obtain ⟨x, hx, hfx⟩ := exMapM_ok_mem h p hp
  cases h1 : getField x "artist_credit" with
  | none => rw [h1] at hfx; simp at hfx
  | some v =>
      rw [h1] at hfx
      simp only [Except.ok.injEq] at hfx
      rw [← hfx]
      exact hx

theorem except_bind_ok {γ δ : Type} {ma : Except Err γ} {f : γ → Except Err δ}
    {b : δ} (h : (ma >>= f) = .ok b) : ∃ x, ma = .ok x ∧ f x = .ok b := by
  cases ma with
  | error e => simp [Bind.bind, Except.bind] at h
  | ok x => exact ⟨x, rfl, by simpa [Bind.bind, Except.bind] using h⟩

/-- Shape of a successful pipeline run: the three projections and the
re-keying all succeeded, and the output is the second co-group merge. -/
theorem runPipeline_ok_shape {aR cR rR : List RecordT} {g a : Table}
    {out : List RecordT} (h : runPipeline aR cR rR g a = .ok out) :
    ∃ artists credits recs stage1k,
      exMapM (fun r => process_artists r g a) aR = .ok artists ∧
      exMapM process_artist_credit cR = .ok credits ∧
      exMapM process_recording rR = .ok recs ∧
      rekey (coGroupMerge artists credits "artist") = .ok stage1k ∧
      out = coGroupMerge stage1k recs "artist_credit" := by
  simp only [runPipeline] at h
  obtain ⟨artists, h1, h⟩ := except_bind_ok h
  obtain ⟨credits, h2, h⟩ := except_bind_ok h
  obtain ⟨recs, h3, h⟩ := except_bind_ok h
  obtain ⟨stage1k, h4, h⟩ := except_bind_ok h
  simp only [Except.ok.injEq] at h
  exact ⟨artists, credits, recs, stage1k, h1, h2, h3, h4, h.symm⟩

/-! ### Claims about the grouped merge -/

/-- Claim C1 (counterexample): with one empty left record and two joins
with different field sets, the second emitted record still carries the
first join's field, so it does not equal a shallow copy of `src` merged
with the second join alone, which no per-pair shallow-copy output does. -/
theorem C1_counterexample :
    (∃ o ∈ mergeGroup [[]] [[("a", Value.int 1)], [("b", Value.int 2)]] "exc",
        getField o "a" = some (Value.int 1) ∧
          getField o "b" = some (Value.int 2)) ∧
      (∀ o ∈ cartesianSpecMerge [[]]
          [[("a", Value.int 1)], [("b", Value.int 2)]] "exc",
        ¬(getField o "a" = some (Value.int 1) ∧
            getField o "b" = some (Value.int 2))) := by
  decide

/-- Claim C1 (amended): for every grouped key, for each `src` in the left
group the merge produces one output record per right-group record, and the
record for the i-th join equals `src` with the non-excluded fields of
joins 1..i applied cumulatively in order, the right-hand and later-join
value winning on any field-name collision (`src` is mutated in place, not
copied per pair). -/
theorem C1_merge_cumulative (sources joins : List RecordT) (e : String) :
    mergeGroup sources joins e =
      sources.flatMap (fun src =>
        (List.range joins.length).map
          (fun i => applyJoins src (joins.take (i + 1)) e)) := by
  unfold mergeGroup
  congr 1
  funext src
  induction joins generalizing src with
  | nil => rfl
  | cons j rest ih =>
      rw [mergeOne_cons, ih (applyJoin src j e)]
      rw [show (j :: rest).length = rest.length + 1 from rfl,
        List.range_succ_eq_map]
      simp only [List.map_cons, List.map_map]
      rfl

/-- Claim C2: the number of records emitted for a grouped key is the size
of the left group times the size of the right group, zero whenever either
side is empty, and the `UnSetCoGroup` call that performs it returns
normally on any co-grouped element carrying both named lists. -/
theorem C2_output_count (sources joins : List RecordT) (e : String) :
    (mergeGroup sources joins e).length = sources.length * joins.length ∧
      mergeGroup sources [] e = [] ∧ mergeGroup [] joins e = [] ∧
      (∀ (k : Value) (sname jname : String), sname ≠ jname →
        unSetCoGroupProcess (k, [(sname, sources), (jname, joins)])
            sname jname e = .ok (mergeGroup sources joins e)) := by
  refine ⟨mergeGroup_length sources joins e, ?_, rfl, ?_⟩
  · induction sources with
    | nil => rfl
    | cons s rest ih => simp [mergeGroup, mergeOne_nil] at *
  · intro k sname jname hne
    simp [unSetCoGroupProcess, lookupGroup, hne, bind, Except.bind]

/-- Claim C2 (witness): a concrete co-grouped element with one left and
one right record is processed without error into its one merged record. -/
theorem C2_output_count_witness :
    unSetCoGroupProcess
        (Value.int 1,
          [("artists", [[("x", Value.int 1)]]),
           ("artist_credit_name", [[("y", Value.int 2)]])])
        "artists" "artist_credit_name" "artist" =
      .ok (mergeGroup [[("x", Value.int 1)]] [[("y", Value.int 2)]] "artist") :=
  (C2_output_count [[("x", Value.int 1)]] [[("y", Value.int 2)]] "artist").2.2.2
    (Value.int 1) "artists" "artist_credit_name" (by decide)

/-- Claim C4: pairing the i-th record emitted for a left record with the
i-th right-group record, every non-excluded field of that right record
appears in the output with the right record's value (overwriting any
left-hand field of the same name), while the output's `exclude_field`
value is the left record's own, never taken from the right record. -/
theorem C4_exclude_field (src : RecordT) (joins : List RecordT) (e : String)
    (hwf : ∀ j ∈ joins, wfRecord j) (i : Nat) (jo o : RecordT)
    (hj : joins[i]? = some jo) (ho : (mergeOne src joins e)[i]? = some o) :
    (∀ k v, k ≠ e → getField jo k = some v → getField o k = some v) ∧
      getField o e = getField src e := by
  have hi : i < joins.length := (List.getElem?_eq_some.mp hj).1
  have hoeq := mergeOne_getElem? joins e src i hi
  rw [ho] at hoeq
  have ho' : o = applyJoins src (joins.take (i + 1)) e :=
    Option.some_injective _ hoeq
  have htake : joins.take (i + 1) = joins.take i ++ [jo] := by
    rw [List.take_succ, hj]
    rfl
  have hsplit : o = applyJoin (applyJoins src (joins.take i) e) jo e := by
    rw [ho', htake, applyJoins_append]
    rfl
  constructor
  · intro k v hk hget
    rw [hsplit]
    exact getField_applyJoin_of_mem (hwf jo (List.getElem?_mem hj)) hget hk _
  · rw [hsplit, getField_applyJoin_exclude, getField_applyJoins_exclude]

/-- Claim C4 (witness): a concrete two-field right record merged onto a
one-field left record with a fresh exclude name. -/
theorem C4_exclude_field_witness :
    (∀ k v, k ≠ "z" → getField [("q", Value.int 2)] k = some v →
        getField [("p", Value.int 1), ("q", Value.int 2)] k = some v) ∧
      getField [("p", Value.int 1), ("q", Value.int 2)] "z" =
        getField [("p", Value.int 1)] "z" :=
  C4_exclude_field [("p", Value.int 1)] [[("q", Value.int 2)]] "z"
    (by decide) 0 [("q", Value.int 2)]
    [("p", Value.int 1), ("q", Value.int 2)] rfl rfl

/-- Claim C7 (scenario B): one artist keyed by id merged against two
credit rows keyed by artist with `exclude_field = artist` yields exactly
two records, one per credit row, each carrying all artist fields plus its
own `artist_credit` (10 and 11 respectively) and no `artist` field. -/
theorem C7_scenario_b :
    coGroupMerge
        [(Value.int 1,
          [("id", Value.int 1), ("artist_gid", Value.str "g1"),
           ("artist_name", Value.str "Bob"), ("area", Value.str "GB"),
           ("gender", Value.str "Male")])]
        [(Value.int 1, [("artist_credit", Value.int 10), ("artist", Value.int 1)]),
         (Value.int 1, [("artist_credit", Value.int 11), ("artist", Value.int 1)])]
        "artist" =
      [[("id", Value.int 1), ("artist_gid", Value.str "g1"),
        ("artist_name", Value.str "Bob"), ("area", Value.str "GB"),
        ("gender", Value.str "Male"), ("artist_credit", Value.int 10)],
       [("id", Value.int 1), ("artist_gid", Value.str "g1"),
        ("artist_name", Value.str "Bob"), ("area", Value.str "GB"),
        ("gender", Value.str "Male"), ("artist_credit", Value.int 11)]] ∧
      ∀ o ∈ coGroupMerge
        [(Value.int 1,
          [("id", Value.int 1), ("artist_gid", Value.str "g1"),
           ("artist_name", Value.str "Bob"), ("area", Value.str "GB"),
           ("gender", Value.str "Male")])]
        [(Value.int 1, [("artist_credit", Value.int 10), ("artist", Value.int 1)]),
         (Value.int 1, [("artist_credit", Value.int 11), ("artist", Value.int 1)])]
        "artist", getField o "artist" = none := by
  decide

/-- Claim C10: for one left record `src`, the i-th record the merge emits
is `src` after the in-place application of joins 1..i in order (the same
mutated object snapshotted at each yield, not a fresh copy per pair); a
non-excluded field assigned by an earlier join persists into every later
output that no intermediate join reassigns. -/
theorem C10_in_place_mutation (src : RecordT) (joins : List RecordT)
    (e : String) :
    (∀ i o, (mergeOne src joins e)[i]? = some o →
        o = applyJoins src (joins.take (i + 1)) e) ∧
      (∀ i1 i2 o1 o2, i1 ≤ i2 →
        (mergeOne src joins e)[i1]? = some o1 →
        (mergeOne src joins e)[i2]? = some o2 →
        ∀ k v, (∀ j ∈ (joins.take (i2 + 1)).drop (i1 + 1), k ∉ j.map Prod.fst) →
          getField o1 k = some v → getField o2 k = some v) := by
  have hchar : ∀ i o, (mergeOne src joins e)[i]? = some o →
      o = applyJoins src (joins.take (i + 1)) e := by
    intro i o ho
    have hi : i < joins.length := by
      have := (List.getElem?_eq_some.mp ho).1
      rwa [mergeOne_length] at this
    have hoeq := mergeOne_getElem? joins e src i hi
    rw [ho] at hoeq
    exact Option.some_injective _ hoeq
  refine ⟨hchar, ?_⟩
  intro i1 i2 o1 o2 hle ho1 ho2 k v hk hget
  have e1 := hchar i1 o1 ho1
  have e2 := hchar i2 o2 ho2
  have hsplit : joins.take (i2 + 1) =
      joins.take (i1 + 1) ++ (joins.take (i2 + 1)).drop (i1 + 1) := by
    conv_lhs => rw [← List.take_append_drop (i1 + 1) (joins.take (i2 + 1))]
    rw [List.take_take, inf_eq_left.mpr (by omega : i1 + 1 ≤ i2 + 1)]
  rw [e2, hsplit, applyJoins_append, ← e1,
    getField_applyJoins_not_mem hk]
  exact hget

/-- Claim C10 (witness): with `src = {}` and joins `{a:1}` then `{b:2}`,
the second output is the cumulative `{a:1, b:2}`, and the field `a` set by
the first join persists into the second output. -/
theorem C10_in_place_mutation_witness :
    ([("a", Value.int 1), ("b", Value.int 2)] : RecordT) =
        applyJoins [] ([[("a", Value.int 1)], [("b", Value.int 2)]].take (1 + 1)) "x" ∧
      getField [("a", Value.int 1), ("b", Value.int 2)] "a" = some (Value.int 1) :=
  ⟨(C10_in_place_mutation [] [[("a", Value.int 1)], [("b", Value.int 2)]] "x").1
      1 [("a", Value.int 1), ("b", Value.int 2)] rfl,
    (C10_in_place_mutation [] [[("a", Value.int 1)], [("b", Value.int 2)]] "x").2
      0 1 [("a", Value.int 1)] [("a", Value.int 1), ("b", Value.int 2)]
      (by decide) rfl rfl "a" (Value.int 1) (by decide) rfl⟩

/-! ### Claims about the resolver -/

/-- Claim C3 (counterexample): with gender value `0` and a gender table
containing the entry `(0, "X")`, the record's gender value equals that
entry's id, yet `process_artists` leaves the field at `0` instead of
resolving it to `"X"`, because the falsy value skips the gender loop. -/
theorem C3_counterexample :
    process_artists
        [("id", Value.int 5), ("gid", Value.str "g"), ("name", Value.str "A"),
         ("area", Value.null), ("gender", Value.int 0)]
        [(Value.int 0, Value.str "X")] [] =
      .ok (Value.int 5,
        [("id", Value.int 5), ("artist_gid", Value.str "g"),
         ("artist_name", Value.str "A"), ("area", Value.null),
         ("gender", Value.int 0)]) ∧
      (Value.int 0, Value.str "X") ∈ ([(Value.int 0, Value.str "X")] : Table) ∧
      Value.int 0 ≠ Value.str "X" :=
  ⟨rfl, by decide, by decide⟩

/-- Claim C3 (amended): for a well-typed reference table, the resolved
area field equals the matching entry's name when the current value matches
some entry's id and is unchanged otherwise, and the same holds for the
gender field provided its current value is truthy; a falsy gender value is
left unchanged even when a matching entry exists.  No error is raised for
an unmatched id. -/
theorem C3_resolution_characterized (row : RecordT) (g a : Table)
    (hg : wfTable g) (ha : wfTable a) (k : Value) (r : RecordT)
    (hok : process_artists row g a = .ok (k, r))
    (va vg : Value) (hva : getField row "area" = some va)
    (hvg : getField row "gender" = some vg) :
    (∀ nm, (va, nm) ∈ a → getField r "area" = some nm) ∧
      ((∀ p ∈ a, p.1 ≠ va) → getField r "area" = some va) ∧
      (vg.truthy = true → ∀ nm, (vg, nm) ∈ g → getField r "gender" = some nm) ∧
      (vg.truthy = true → (∀ p ∈ g, p.1 ≠ vg) →
        getField r "gender" = some vg) ∧
      (vg.truthy = false → getField r "gender" = some vg) := by
  obtain ⟨idv, gidv, namev, areav, genderv, h1, h2, h3, h4, h5, hk, hr⟩ :=
    process_artists_ok_shape hok
  rw [hva] at h4
  rw [hvg] at h5
  cases h4
  cases h5
  subst hr
  refine ⟨?_, ?_, ?_, ?_, ?_⟩
  · intro nm hnm
    have : resolveArea a va = nm := lookupLoop_match ha hnm
    simp [getField, this]
  · intro hno
    have : resolveArea a va = va := lookupLoop_no_match hno
    simp [getField, this]
  · intro htr nm hnm
    have : resolveGender g vg = nm := by
      rw [resolveGender, if_pos htr]
      exact lookupLoop_match hg hnm
    simp [getField, this]
  · intro htr hno
    have : resolveGender g vg = vg := by
      rw [resolveGender, if_pos htr]
      exact lookupLoop_no_match hno
    simp [getField, this]
  · intro hfa
    have : resolveGender g vg = vg := by
      rw [resolveGender, if_neg (by simp [hfa])]
    simp [getField, this]

/-- Claim C3 (witness): a concrete artist whose area id 7 and gender id 1
both match table entries and resolve to the entries' names. -/
theorem C3_resolution_characterized_witness :
    (∀ nm, (Value.int 7, nm) ∈ ([(Value.int 7, Value.str "GB")] : Table) →
        getField [("id", Value.int 5), ("artist_gid", Value.str "g"),
          ("artist_name", Value.str "A"), ("area", Value.str "GB"),
          ("gender", Value.str "Male")] "area" = some nm) ∧
      ((∀ p ∈ ([(Value.int 7, Value.str "GB")] : Table), p.1 ≠ Value.int 7) →
        getField [("id", Value.int 5), ("artist_gid", Value.str "g"),
          ("artist_name", Value.str "A"), ("area", Value.str "GB"),
          ("gender", Value.str "Male")] "area" = some (Value.int 7)) ∧
      ((Value.int 1).truthy = true →
        ∀ nm, (Value.int 1, nm) ∈ ([(Value.int 1, Value.str "Male")] : Table) →
          getField [("id", Value.int 5), ("artist_gid", Value.str "g"),
            ("artist_name", Value.str "A"), ("area", Value.str "GB"),
            ("gender", Value.str "Male")] "gender" = some nm) ∧
      ((Value.int 1).truthy = true →
        (∀ p ∈ ([(Value.int 1, Value.str "Male")] : Table), p.1 ≠ Value.int 1) →
          getField [("id", Value.int 5), ("artist_gid", Value.str "g"),
            ("artist_name", Value.str "A"), ("area", Value.str "GB"),
            ("gender", Value.str "Male")] "gender" = some (Value.int 1)) ∧
      ((Value.int 1).truthy = false →
        getField [("id", Value.int 5), ("artist_gid", Value.str "g"),
          ("artist_name", Value.str "A"), ("area", Value.str "GB"),
          ("gender", Value.str "Male")] "gender" = some (Value.int 1)) :=
  C3_resolution_characterized
    [("id", Value.int 5), ("gid", Value.str "g"), ("name", Value.str "A"),
     ("area", Value.int 7), ("gender", Value.int 1)]
    [(Value.int 1, Value.str "Male")] [(Value.int 7, Value.str "GB")]
    (by decide) (by decide) (Value.int 5)
    [("id", Value.int 5), ("artist_gid", Value.str "g"),
     ("artist_name", Value.str "A"), ("area", Value.str "GB"),
     ("gender", Value.str "Male")]
    rfl (Value.int 7) (Value.int 1) rfl rfl

/-- Claim C6: the falsy-value treatment is asymmetric.  When the gender
field's current value is falsy the gender lookup is skipped entirely, for
every gender table (including one containing a matching entry), while the
area lookup is applied unconditionally, resolving even a falsy area value
that matches an entry. -/
theorem C6_falsy_asymmetry (row : RecordT) (g a : Table) (ha : wfTable a)
    (k : Value) (r : RecordT) (hok : process_artists row g a = .ok (k, r))
    (va vg : Value) (hva : getField row "area" = some va)
    (hvg : getField row "gender" = some vg)
    (hfalsy : vg.truthy = false) :
    getField r "gender" = some vg ∧
      (∀ nm, (va, nm) ∈ a → getField r "area" = some nm) := by
  obtain ⟨idv, gidv, namev, areav, genderv, h1, h2, h3, h4, h5, hk, hr⟩ :=
    process_artists_ok_shape hok
  rw [hva] at h4
  rw [hvg] at h5
  cases h4
  cases h5
  subst hr
  constructor
  · have : resolveGender g vg = vg := by
      rw [resolveGender, if_neg (by simp [hfalsy])]
    simp [getField, this]
  · intro nm hnm
    have : resolveArea a va = nm := lookupLoop_match ha hnm
    simp [getField, this]

/-- Claim C6 (witness): gender 0 stays 0 although the gender table has an
entry with id 0, while area 0 resolves to "X" through the matching area
entry with id 0. -/
theorem C6_falsy_asymmetry_witness :
    getField [("id", Value.int 5), ("artist_gid", Value.str "g"),
      ("artist_name", Value.str "A"), ("area", Value.str "X"),
      ("gender", Value.int 0)] "gender" = some (Value.int 0) ∧
      (∀ nm, (Value.int 0, nm) ∈ ([(Value.int 0, Value.str "X")] : Table) →
        getField [("id", Value.int 5), ("artist_gid", Value.str "g"),
          ("artist_name", Value.str "A"), ("area", Value.str "X"),
          ("gender", Value.int 0)] "area" = some nm) :=
  C6_falsy_asymmetry
    [("id", Value.int 5), ("gid", Value.str "g"), ("name", Value.str "A"),
     ("area", Value.int 0), ("gender", Value.int 0)]
    [(Value.int 0, Value.str "Y")] [(Value.int 0, Value.str "X")]
    (by decide) (Value.int 5)
    [("id", Value.int 5), ("artist_gid", Value.str "g"),
     ("artist_name", Value.str "A"), ("area", Value.str "X"),
     ("gender", Value.int 0)]
    rfl (Value.int 0) (Value.int 0) rfl rfl rfl

/-- Claim C8: running the resolution step (lines 30-36) again on a record
whose area and gender fields already hold strings is a no-op for every
pair of tables whose entry ids are integers, since no integer id equals a
string; it is a total function, so no error can be raised. -/
theorem C8_idempotent_on_resolved (g a : Table) (r : RecordT)
    (hg : ∀ p ∈ g, isIntV p.1 = true) (ha : ∀ p ∈ a, isIntV p.1 = true)
    (sg sa : String) (hrg : getField r "gender" = some (Value.str sg))
    (hra : getField r "area" = some (Value.str sa)) :
    resolveRecordFields g a r = r := by
  have hgender : resolveGender g (Value.str sg) = Value.str sg := by
    rw [resolveGender]
    by_cases htr : (Value.str sg).truthy = true
    · rw [if_pos htr]
      exact lookupLoop_str (fun p hp => isIntV_iff.mp (hg p hp)) sg
    · rw [if_neg htr]
  have harea : resolveArea a (Value.str sa) = Value.str sa :=
    lookupLoop_str (fun p hp => isIntV_iff.mp (ha p hp)) sa
  rw [resolveRecordFields]
  simp only [getFieldD, hrg, Option.getD_some, hgender,
    setField_getField_self hrg, hra, harea, setField_getField_self hra]

/-- Claim C8 (witness): re-resolving a record whose gender and area are
already the name strings "Male" and "GB" against integer-id tables leaves
it unchanged. -/
theorem C8_idempotent_on_resolved_witness :
    resolveRecordFields [(Value.int 1, Value.str "Male")]
        [(Value.int 7, Value.str "GB")]
        [("id", Value.int 5), ("artist_gid", Value.str "g"),
         ("artist_name", Value.str "A"), ("area", Value.str "GB"),
         ("gender", Value.str "Male")] =
      [("id", Value.int 5), ("artist_gid", Value.str "g"),
       ("artist_name", Value.str "A"), ("area", Value.str "GB"),
       ("gender", Value.str "Male")] :=
  C8_idempotent_on_resolved [(Value.int 1, Value.str "Male")]
    [(Value.int 7, Value.str "GB")]
    [("id", Value.int 5), ("artist_gid", Value.str "g"),
     ("artist_name", Value.str "A"), ("area", Value.str "GB"),
     ("gender", Value.str "Male")]
    (by decide) (by decide) "Male" "GB" rfl rfl

/-- Claim C9: a record missing one of the five fields the resolver reads
makes `process_artists` fail with a propagated missing-field error naming
an absent field (the record is neither dropped nor emitted), and a
co-grouped element missing one of the two list names the merge reads makes
`UnSetCoGroup.process` fail the same way. -/
theorem C9_missing_field_error (row : RecordT) (g a : Table) (f : String)
    (hf : f ∈ (["id", "gid", "name", "area", "gender"] : List String))
    (hmiss : getField row f = none) :
    (∃ f2, process_artists row g a = .error (.missingField f2) ∧
        getField row f2 = none) ∧
      (∀ (k : Value) (d : List (String × List RecordT)) (sname jname e : String),
        lookupGroup d sname = none ∨ lookupGroup d jname = none →
        ∃ f2, unSetCoGroupProcess (k, d) sname jname e =
            .error (.missingField f2) ∧ lookupGroup d f2 = none) := by
  constructor
  · cases h1 : getField row "id" with
    | none =>
        exact ⟨"id", by simp [process_artists, req, h1, bind, Except.bind], h1⟩
    | some v1 =>
    cases h2 : getField row "gid" with
    | none =>
        exact ⟨"gid",
          by simp [process_artists, req, h1, h2, bind, Except.bind], h2⟩
    | some v2 =>
    cases h3 : getField row "name" with
    | none =>
        exact ⟨"name",
          by simp [process_artists, req, h1, h2, h3, bind, Except.bind], h3⟩
    | some v3 =>
    cases h4 : getField row "area" with
    | none =>
        exact ⟨"area",
          by simp [process_artists, req, h1, h2, h3, h4, bind, Except.bind], h4⟩
    | some v4 =>
    cases h5 : getField row "gender" with
    | none =>
        exact ⟨"gender",
          by simp [process_artists, req, h1, h2, h3, h4, h5, bind, Except.bind],
          h5⟩
    | some v5 =>
        exfalso
        simp only [List.mem_cons, List.not_mem_nil, or_false] at hf
        rcases hf with rfl | rfl | rfl | rfl | rfl
        · rw [h1] at hmiss; exact Option.noConfusion hmiss
        · rw [h2] at hmiss; exact Option.noConfusion hmiss
        · rw [h3] at hmiss; exact Option.noConfusion hmiss
        · rw [h4] at hmiss; exact Option.noConfusion hmiss
        · rw [h5] at hmiss; exact Option.noConfusion hmiss
  · intro k d sname jname e hor
    cases hs : lookupGroup d sname with
    | none =>
        exact ⟨sname, by simp [unSetCoGroupProcess, hs, bind, Except.bind], hs⟩
    | some ls =>
        cases hj : lookupGroup d jname with
        | none =>
            exact ⟨jname,
              by simp [unSetCoGroupProcess, hs, hj, bind, Except.bind], hj⟩
        | some lj =>
            exfalso
            rcases hor with h | h
            · rw [hs] at h; exact Option.noConfusion h
            · rw [hj] at h; exact Option.noConfusion h

/-- Claim C9 (witness): a row holding only an id fails the resolver with a
missing-field error, and the merge error case is available for any
malformed co-grouped element. -/
theorem C9_missing_field_error_witness :
    (∃ f2, process_artists [("id", Value.int 1)] [] [] =
        .error (.missingField f2) ∧
        getField [("id", Value.int 1)] f2 = none) ∧
      (∀ (k : Value) (d : List (String × List RecordT)) (sname jname e : String),
        lookupGroup d sname = none ∨ lookupGroup d jname = none →
        ∃ f2, unSetCoGroupProcess (k, d) sname jname e =
            .error (.missingField f2) ∧ lookupGroup d f2 = none) :=
  C9_missing_field_error [("id", Value.int 1)] [] [] "gid" (by decide) rfl

/-- Claim C5 (counterexample): a full pipeline run in which the artist's
gender value `0` matches the gender-table entry `(0, "X")` still emits the
row with gender `0`, not the name string `"X"`, because the falsy gender
value skips the lookup. -/
theorem C5_counterexample :
    runPipeline
        [[("id", Value.int 1), ("gid", Value.str "g"), ("name", Value.str "A"),
          ("area", Value.int 7), ("gender", Value.int 0)]]
        [[("artist_credit", Value.int 10), ("artist", Value.int 1)]]
        [[("name", Value.str "Song"), ("length", Value.int 100),
          ("gid", Value.str "rg"), ("video", Value.bool false),
          ("artist_credit", Value.int 10)]]
        [(Value.int 0, Value.str "X")] [(Value.int 7, Value.str "GB")] =
      .ok [[("id", Value.int 1), ("artist_gid", Value.str "g"),
            ("artist_name", Value.str "A"), ("area", Value.str "GB"),
            ("gender", Value.int 0), ("artist_credit", Value.int 10),
            ("recording_name", Value.str "Song"), ("length", Value.int 100),
            ("recording_gid", Value.str "rg"), ("video", Value.bool false)]] ∧
      (Value.int 0, Value.str "X") ∈ ([(Value.int 0, Value.str "X")] : Table) ∧
      getField [("id", Value.int 1), ("artist_gid", Value.str "g"),
          ("artist_name", Value.str "A"), ("area", Value.str "GB"),
          ("gender", Value.int 0), ("artist_credit", Value.int 10),
          ("recording_name", Value.str "Song"), ("length", Value.int 100),
          ("recording_gid", Value.str "rg"), ("video", Value.bool false)]
        "gender" = some (Value.int 0) ∧
      Value.int 0 ≠ Value.str "X" :=
  ⟨rfl, by decide, rfl, by decide⟩

/-- Claim C5 (amended): every final output row's area and gender fields
come unchanged through both merges from some resolved input artist row;
for well-typed tables the area field holds the matching entry's name when
the artist's area value matched an id and the original value otherwise,
and likewise for gender when its pre-resolution value was truthy, while a
falsy gender value is kept as-is even if a matching entry existed.  A
successful run never aborts on an unresolved reference. -/
theorem C5_area_gender_invariant (aR cR rR : List RecordT) (g a : Table)
    (hg : wfTable g) (ha : wfTable a) (out : List RecordT)
    (hrun : runPipeline aR cR rR g a = .ok out) (o : RecordT) (ho : o ∈ out) :
    ∃ row ∈ aR, ∃ va vg,
      getField row "area" = some va ∧ getField row "gender" = some vg ∧
      (∀ nm, (va, nm) ∈ a → getField o "area" = some nm) ∧
      ((∀ p ∈ a, p.1 ≠ va) → getField o "area" = some va) ∧
      (vg.truthy = true → ∀ nm, (vg, nm) ∈ g → getField o "gender" = some nm) ∧
      (vg.truthy = true → (∀ p ∈ g, p.1 ≠ vg) →
        getField o "gender" = some vg) ∧
      (vg.truthy = false → getField o "gender" = some vg) := by
  obtain ⟨artists, credits, recs, stage1k, hA, hC, hR, hK, hout⟩ :=
    runPipeline_ok_shape hrun
  subst hout
  obtain ⟨src1, hsrc1, js, hjs, homem⟩ := mem_coGroupMerge ho
  have hrecfields : ∀ j ∈ js, "area" ∉ j.map Prod.fst ∧
      "gender" ∉ j.map Prod.fst := by
    intro j hj
    obtain ⟨p, hp, hps⟩ := List.mem_map.mp (hjs j hj)
    obtain ⟨rrow, _, hpr⟩ := exMapM_ok_mem hR p hp
    obtain ⟨n, len, g2, vid, ac, _, _, _, _, _, _, hrshape⟩ :=
      process_recording_ok_shape
        (show process_recording rrow = .ok (p.1, p.2) from by rw [hpr])
    rw [← hps, hrshape]
    constructor
    · simp
    · simp
  have hoarea : getField o "area" = getField src1 "area" :=
    getField_mem_mergeOne_not_mem homem (fun j hj => (hrecfields j hj).1)
  have hogender : getField o "gender" = getField src1 "gender" :=
    getField_mem_mergeOne_not_mem homem (fun j hj => (hrecfields j hj).2)
  obtain ⟨q, hq, hqs⟩ := List.mem_map.mp hsrc1
  have hsrc1stage1 : src1 ∈ coGroupMerge artists credits "artist" := by
    rw [← hqs]
    exact rekey_ok_mem hK q hq
  obtain ⟨src0, hsrc0, js2, hjs2, hmem2⟩ := mem_coGroupMerge hsrc1stage1
  have hcreditfields : ∀ j ∈ js2, "area" ∉ j.map Prod.fst ∧
      "gender" ∉ j.map Prod.fst := by
    intro j hj
    obtain ⟨p, hp, hps⟩ := List.mem_map.mp (hjs2 j hj)
    obtain ⟨crow, _, hcr⟩ := exMapM_ok_mem hC p hp
    obtain ⟨ac, ar, _, _, _, hcshape⟩ :=
      process_artist_credit_ok_shape
        (show process_artist_credit crow = .ok (p.1, p.2) from by rw [hcr])
    rw [← hps, hcshape]
    constructor
    · simp
    · simp
  have h1area : getField src1 "area" = getField src0 "area" :=
    getField_mem_mergeOne_not_mem hmem2 (fun j hj => (hcreditfields j hj).1)
  have h1gender : getField src1 "gender" = getField src0 "gender" :=
    getField_mem_mergeOne_not_mem hmem2 (fun j hj => (hcreditfields j hj).2)
  obtain ⟨q2, hq2, hq2s⟩ := List.mem_map.mp hsrc0
  obtain ⟨row, hrow, hpa⟩ := exMapM_ok_mem hA q2 hq2
  obtain ⟨idv, gidv, namev, areav, genderv, hid, hgid, hname, hva, hvg, hk0, hr0⟩ :=
    process_artists_ok_shape
      (show process_artists row g a = .ok (q2.1, q2.2) from by rw [hpa])
  have hsrc0area : getField src0 "area" = some (resolveArea a areav) := by
    rw [← hq2s, hr0]
    rfl
  have hsrc0gender : getField src0 "gender" = some (resolveGender g genderv) := by
    rw [← hq2s, hr0]
    rfl
  have hOarea : getField o "area" = some (resolveArea a areav) := by
    rw [hoarea, h1area, hsrc0area]
  have hOgender : getField o "gender" = some (resolveGender g genderv) := by
    rw [hogender, h1gender, hsrc0gender]
  refine ⟨row, hrow, areav, genderv, hva, hvg, ?_, ?_, ?_, ?_, ?_⟩
  · intro nm hnm
    have hres : resolveArea a areav = nm := lookupLoop_match ha hnm
    rw [hOarea, hres]
  · intro hno
    have hres : resolveArea a areav = areav := lookupLoop_no_match hno
    rw [hOarea, hres]
  · intro htr nm hnm
    have hres : resolveGender g genderv = nm := by
      rw [resolveGender, if_pos htr]
      exact lookupLoop_match hg hnm
    rw [hOgender, hres]
  · intro htr hno
    have hres : resolveGender g genderv = genderv := by
      rw [resolveGender, if_pos htr]
      exact lookupLoop_no_match hno
    rw [hOgender, hres]
  · intro hfa
    have hres : resolveGender g genderv = genderv := by
      rw [resolveGender, if_neg (by simp [hfa])]
    rw [hOgender, hres]

/-- Claim C5 (witness): a concrete full run whose artist has truthy gender
id 1 and area id 7, both matched by the tables, satisfies the invariant at
its single output row. -/
theorem C5_area_gender_invariant_witness :
    ∃ row ∈ [[("id", Value.int 1), ("gid", Value.str "g"),
        ("name", Value.str "A"), ("area", Value.int 7),
        ("gender", Value.int 1)]], ∃ va vg,
      getField row "area" = some va ∧ getField row "gender" = some vg ∧
      (∀ nm, (va, nm) ∈ ([(Value.int 7, Value.str "GB")] : Table) →
        getField [("id", Value.int 1), ("artist_gid", Value.str "g"),
          ("artist_name", Value.str "A"), ("area", Value.str "GB"),
          ("gender", Value.str "Male"), ("artist_credit", Value.int 10),
          ("recording_name", Value.str "Song"), ("length", Value.int 100),
          ("recording_gid", Value.str "rg"), ("video", Value.bool false)]
          "area" = some nm) ∧
      ((∀ p ∈ ([(Value.int 7, Value.str "GB")] : Table), p.1 ≠ va) →
        getField [("id", Value.int 1), ("artist_gid", Value.str "g"),
          ("artist_name", Value.str "A"), ("area", Value.str "GB"),
          ("gender", Value.str "Male"), ("artist_credit", Value.int 10),
          ("recording_name", Value.str "Song"), ("length", Value.int 100),
          ("recording_gid", Value.str "rg"), ("video", Value.bool false)]
          "area" = some va) ∧
      (vg.truthy = true →
        ∀ nm, (vg, nm) ∈ ([(Value.int 1, Value.str "Male")] : Table) →
        getField [("id", Value.int 1), ("artist_gid", Value.str "g"),
          ("artist_name", Value.str "A"), ("area", Value.str "GB"),
          ("gender", Value.str "Male"), ("artist_credit", Value.int 10),
          ("recording_name", Value.str "Song"), ("length", Value.int 100),
          ("recording_gid", Value.str "rg"), ("video", Value.bool false)]
          "gender" = some nm) ∧
      (vg.truthy = true →
        (∀ p ∈ ([(Value.int 1, Value.str "Male")] : Table), p.1 ≠ vg) →
        getField [("id", Value.int 1), ("artist_gid", Value.str "g"),
          ("artist_name", Value.str "A"), ("area", Value.str "GB"),
          ("gender", Value.str "Male"), ("artist_credit", Value.int 10),
          ("recording_name", Value.str "Song"), ("length", Value.int 100),
          ("recording_gid", Value.str "rg"), ("video", Value.bool false)]
          "gender" = some vg) ∧
      (vg.truthy = false →
        getField [("id", Value.int 1), ("artist_gid", Value.str "g"),
          ("artist_name", Value.str "A"), ("area", Value.str "GB"),
          ("gender", Value.str "Male"), ("artist_credit", Value.int 10),
          ("recording_name", Value.str "Song"), ("length", Value.int 100),
          ("recording_gid", Value.str "rg"), ("video", Value.bool false)]
          "gender" = some vg) :=
  C5_area_gender_invariant
    [[("id", Value.int 1), ("gid", Value.str "g"), ("name", Value.str "A"),
      ("area", Value.int 7), ("gender", Value.int 1)]]
    [[("artist_credit", Value.int 10), ("artist", Value.int 1)]]
    [[("name", Value.str "Song"), ("length", Value.int 100),
      ("gid", Value.str "rg"), ("video", Value.bool false),
      ("artist_credit", Value.int 10)]]
    [(Value.int 1, Value.str "Male")] [(Value.int 7, Value.str "GB")]
    (by decide) (by decide)
    [[("id", Value.int 1), ("artist_gid", Value.str "g"),
      ("artist_name", Value.str "A"), ("area", Value.str "GB"),
      ("gender", Value.str "Male"), ("artist_credit", Value.int 10),
      ("recording_name", Value.str "Song"), ("length", Value.int 100),
      ("recording_gid", Value.str "rg"), ("video", Value.bool false)]]
    rfl
    [("id", Value.int 1), ("artist_gid", Value.str "g"),
     ("artist_name", Value.str "A"), ("area", Value.str "GB"),
     ("gender", Value.str "Male"), ("artist_credit", Value.int 10),
     ("recording_name", Value.str "Song"), ("length", Value.int 100),
     ("recording_gid", Value.str "rg"), ("video", Value.bool false)]
    (by decide)
